import Mathlib

/-!
Verification of the mailtutan ingestion core: a shallow embedding of
`mailtutan-lib/src/models/message.rs` (`Message::from`) and
`mailtutan-lib/src/smtp.rs` (`MyHandler::data`, `MyHandler::data_end`).

Byte buffers (`Vec<u8>`) are modelled as `String`: every input considered
here is ASCII, so the identification is faithful.  A Rust panic
(`unwrap` on a failing value, `todo!()`) is modelled by `Option.none`
propagating out of the embedded function.
-/

namespace Mailtutan

/-- One mail header as exposed by the mailparse crate's `MailHeader`:
`name` is `get_key()`, `value` is `get_value()` (already unfolded, with
surrounding whitespace trimmed). -/
structure Header where
  name : String
  value : String
deriving Repr, DecidableEq

/-- mailparse `DispositionType`. -/
inductive DispositionType where
  | inlined
  | attachment
  | formData
  | extensionType (s : String)
deriving Repr, DecidableEq

/-- mailparse `ParsedContentDisposition`: the disposition type and its
parameters (`params`, keys lowercased by mailparse). -/
structure ContentDisposition where
  disposition : DispositionType
  params : List (String × String)
deriving Repr, DecidableEq

/-- One MIME entity exactly as `Message::from` consumes it:
`headers` (used via `get_first_value`), `mimetype` is `ctype.mimetype`,
`disposition` is `get_content_disposition()`, `bodyRaw` is
`get_body_raw().ok()` and `body` is `get_body().ok()` (`none` models the
`Err` case of the corresponding `Result`). -/
structure Part where
  headers : List Header
  mimetype : String
  disposition : ContentDisposition
  bodyRaw : Option String
  body : Option String
deriving Repr, DecidableEq

/-- The `parse_mail` output as `Message::from` consumes it: the top-level
entity and its immediate `subparts` (the loop in `Message::from` never
recurses deeper than one level). -/
structure ParsedMail where
  top : Part
  subparts : List Part
deriving Repr, DecidableEq

/-- mailparse compares header names ASCII-case-insensitively. -/
def headerNameMatches (n key : String) : Bool :=
  n.data.map Char.toLower == key.data.map Char.toLower

/-- mailparse `headers.get_first_value(key)`. -/
def getFirstValue (hs : List Header) (key : String) : Option String :=
  (hs.find? (fun h => headerNameMatches h.name key)).map Header.value

/-- mailparse `headers.get_all_values(key)`: one entry per header
occurrence, in appearance order, values not split on commas. -/
def getAllValues (hs : List Header) (key : String) : List String :=
  (hs.filter (fun h => headerNameMatches h.name key)).map Header.value

/-- `Attachment` from `models/message.rs` (serde-only attributes dropped;
`body` is the raw decoded bytes). -/
structure Attachment where
  cid : String
  file_type : String
  filename : String
  body : String
deriving Repr, DecidableEq

/-- `Message` from `models/message.rs` (serde-only attributes dropped). -/
structure Message where
  id : Option Nat
  sender : String
  recipients : List String
  subject : String
  created_at : Option String
  attachments : List Attachment
  source : String
  formats : List String
  html : Option String
  plain : Option String
deriving Repr, DecidableEq

/-- `params.get("filename")` on the disposition's parameter map. -/
def paramsGet (ps : List (String × String)) (key : String) : Option String :=
  (ps.find? (fun p => p.fst = key)).map Prod.snd

/-- The mutable loop state of `Message::from`'s part loop:
`formats`, `html`, `plain`, `attachments`. -/
structure LoopState where
  formats : List String
  html : Option String
  plain : Option String
  attachments : List Attachment
deriving Repr, DecidableEq

/-- One iteration of the part loop in `Message::from`
(message.rs lines 63-91).  `none` models a panic: the `unwrap()` on the
`filename` disposition parameter, on `get_body_raw()`, on the
`Content-ID` header, and the `todo!()` on an inline part whose MIME type
is neither `text/html` nor `text/plain`. -/
def processPart (st : LoopState) (part : Part) : Option LoopState :=
  if part.disposition.disposition = DispositionType.attachment then
    match paramsGet part.disposition.params "filename", part.bodyRaw,
        getFirstValue part.headers "Content-ID" with
    | some filename, some braw, some cid =>
        some { st with attachments := st.attachments ++
          [{ cid := cid, file_type := part.mimetype,
             filename := filename, body := braw }] }
    | _, _, _ => none
  else if part.mimetype = "text/html" then
    some { st with formats := st.formats ++ ["html"], html := part.body }
  else if part.mimetype = "text/plain" then
    some { st with formats := st.formats ++ ["plain"], plain := part.body }
  else none

/-- The whole part loop: threads the state through the parts, aborting
(`none`) as soon as one part panics. -/
def processParts (st : LoopState) : List Part → Option LoopState
  | [] => some st
  | p :: ps =>
    match processPart st p with
    | none => none
    | some st2 => processParts st2 ps

/-- The working part list (message.rs lines 56-60): the subparts when
there are any, otherwise the top-level entity itself as the only part. -/
def partsOf (parsed : ParsedMail) : List Part :=
  if parsed.subparts.length > 0 then parsed.subparts else [parsed.top]

/-- `Message::from(&Vec<u8>)` given the already-parsed mail (the result
of `parse_mail(data).unwrap()`); `now` stands for
`Utc::now().to_rfc3339()`.  Returns `none` exactly where the Rust code
panics. -/
def messageFromParsed (data : String) (now : String) (parsed : ParsedMail) :
    Option Message :=
  let sender := (getFirstValue parsed.top.headers "From").getD ""
  let recipients := getAllValues parsed.top.headers "To"
  let subject := (getFirstValue parsed.top.headers "Subject").getD ""
  match processParts ⟨["source"], none, none, []⟩ (partsOf parsed) with
  | none => none
  | some st => some {
      id := none,
      sender := sender,
      recipients := recipients,
      subject := subject,
      created_at := some now,
      attachments := st.attachments,
      source := data,
      formats := st.formats,
      html := st.html,
      plain := st.plain }

/-- `Message::from` from raw bytes: `parse_mail(data).unwrap()` (whose
failure is a panic, hence `none`) followed by the record construction.
`parseMail` abstracts the mailparse crate's parser. -/
def messageFrom (parseMail : String → Option ParsedMail) (now : String)
    (data : String) : Option Message :=
  match parseMail data with
  | none => none
  | some parsed => messageFromParsed data now parsed

/-! ### A byte-level model of the mailparse dependency

`parse_mail` lives in the mailparse crate, not in this repository; the
following model reproduces its documented behaviour on the fragment the
concrete inputs of this file exercise: ASCII, non-multipart, no header
folding, no `Content-Transfer-Encoding`, no disposition parameters.
In that fragment: headers are `Name: value` lines up to the first blank
line (a header line with no colon is a parse error, "Unexpected newline
in header key"); the body is everything after the blank line; a missing
`Content-Type` defaults to `text/plain`; a missing `Content-Disposition`
defaults to inline; `get_body` / `get_body_raw` return the body
unchanged. -/

/-- Split a character list into its newline-separated lines
(the trailing fragment after the last newline included, as with
splitting on a separator). -/
def splitLinesAux (cur : List Char) : List Char → List (List Char)
  | [] => [cur.reverse]
  | c :: cs =>
    if c = '\n' then cur.reverse :: splitLinesAux [] cs
    else splitLinesAux (c :: cur) cs

def splitLines (cs : List Char) : List (List Char) :=
  splitLinesAux [] cs

/-- Split a header line at its first colon; `none` when the line holds no
colon (mailparse's "Unexpected newline in header key" error). -/
def splitColon : List Char → Option (List Char × List Char)
  | [] => none
  | c :: cs =>
    if c = ':' then some ([], cs)
    else (splitColon cs).map (fun p => (c :: p.fst, p.snd))

def isSpaceChar (c : Char) : Bool :=
  c = ' ' || c = '\t' || c = '\r' || c = '\n'

def trimChars (cs : List Char) : List Char :=
  ((cs.dropWhile isSpaceChar).reverse.dropWhile isSpaceChar).reverse

/-- Parse one `Name: value` header line; the value is trimmed as
mailparse's `get_value` does. -/
def parseHeaderLineModel (line : List Char) : Option Header :=
  match splitColon line with
  | none => none
  | some (name, rest) => some ⟨String.mk name, String.mk (trimChars rest)⟩

/-- Consume header lines until the first blank line; returns the parsed
headers and the remaining body lines. -/
def parseHeaderLinesModel :
    List (List Char) → Option (List Header × List (List Char))
  | [] => some ([], [])
  | line :: rest =>
    if line.isEmpty then some ([], rest)
    else
      match parseHeaderLineModel line with
      | none => none
      | some h =>
        match parseHeaderLinesModel rest with
        | none => none
        | some (hs, body) => some (h :: hs, body)

def joinLines : List (List Char) → List Char
  | [] => []
  | [l] => l
  | l :: ls => l ++ '\n' :: joinLines ls

/-- Keep the characters before the first semicolon. -/
def takeUntilSemicolon : List Char → List Char
  | [] => []
  | c :: cs => if c = ';' then [] else c :: takeUntilSemicolon cs

/-- The MIME type of a `Content-Type` value: the token before any
parameters, trimmed and lowercased (mailparse stores it lowercased). -/
def mimeOfContentType (v : String) : String :=
  String.mk ((trimChars (takeUntilSemicolon v.data)).map Char.toLower)

/-- The disposition type of a `Content-Disposition` value. -/
def dispositionOfValue (v : String) : DispositionType :=
  let tok := String.mk ((trimChars (takeUntilSemicolon v.data)).map Char.toLower)
  if tok = "inline" then DispositionType.inlined
  else if tok = "attachment" then DispositionType.attachment
  else if tok = "form-data" then DispositionType.formData
  else DispositionType.extensionType tok

/-- Model of the mailparse crate's `parse_mail`, restricted to the
fragment described above.  `none` models the `Err` that
`parse_mail(data.as_ref()).unwrap()` turns into a panic. -/
def parseMailSimple (data : String) : Option ParsedMail :=
  match parseHeaderLinesModel (splitLines data.data) with
  | none => none
  | some (hs, bodyLines) =>
    let body := String.mk (joinLines bodyLines)
    let mimetype :=
      match getFirstValue hs "Content-Type" with
      | none => "text/plain"
      | some v => mimeOfContentType v
    let disp : ContentDisposition :=
      match getFirstValue hs "Content-Disposition" with
      | none => ⟨DispositionType.inlined, []⟩
      | some v => ⟨dispositionOfValue v, []⟩
    some ⟨⟨hs, mimetype, disp, some body, some body⟩, []⟩

/-! ### The Ingestion Adapter (`smtp.rs`, `MyHandler`) -/

/-- The SMTP responses the mailin-embedded library lets a handler return:
`ok` is `mailin_embedded::response::OK` (the only one `data_end` ever
returns); `rejected` stands for the library's negative responses. -/
inductive Response where
  | ok
  | rejected
deriving Repr, DecidableEq

/-- `MyHandler`: the per-session accumulation buffer and (as the model of
`conn.storage`) the list of messages passed to `add` so far. -/
structure MyHandler where
  data : String
  storage : List Message
deriving Repr, DecidableEq

/-- `Handler::data` (smtp.rs lines 14-18): append the chunk to the
buffer. -/
def handlerData (h : MyHandler) (buf : String) : MyHandler :=
  { h with data := h.data ++ buf }

/-- `Handler::data_end` (smtp.rs lines 20-26): build
`Message::from(&self.data)` — a panic there (`none`) propagates and no
response is produced — then `storage.add(message)` and return `OK`.
The buffer `self.data` is not cleared. -/
def dataEnd (parseMail : String → Option ParsedMail) (now : String)
    (h : MyHandler) : Option (MyHandler × Response) :=
  match messageFrom parseMail now h.data with
  | none => none
  | some m => some ({ h with storage := h.storage ++ [m] }, Response.ok)

/-! ### Derived predicates used in the statements -/

/-- The format tag a part contributes: `none` for an attachment-disposed
part, `"html"` / `"plain"` for the two inline text types, `none` for any
other inline type (where the code panics instead of contributing). -/
def partFormat (p : Part) : Option String :=
  if p.disposition.disposition = DispositionType.attachment then none
  else if p.mimetype = "text/html" then some "html"
  else if p.mimetype = "text/plain" then some "plain"
  else none

/-- The part is inline (not attachment-disposed) with MIME type
`text/html`. -/
def isInlineHtml (p : Part) : Bool :=
  if p.disposition.disposition = DispositionType.attachment then false
  else if p.mimetype = "text/html" then true
  else false

/-- The part is inline (not attachment-disposed) with MIME type
`text/plain`. -/
def isInlinePlain (p : Part) : Bool :=
  if p.disposition.disposition = DispositionType.attachment then false
  else if p.mimetype = "text/plain" then true
  else false

/-- Some header with the given (case-insensitive) name is present. -/
def hasHeaderNamed (hs : List Header) (key : String) : Bool :=
  hs.any (fun h => headerNameMatches h.name key)

/-- Keep the headers whose name matches none of `keys`
(case-insensitively). -/
def filterHeadersNot (keys : List String) (hs : List Header) : List Header :=
  hs.filter (fun h => keys.all (fun k => ! headerNameMatches h.name k))

/-- Drop every top-level header whose name matches one of `keys`
(case-insensitively); parts and everything else are untouched. -/
def eraseTopHeaders (keys : List String) (p : ParsedMail) : ParsedMail :=
  { p with top := { p.top with headers := filterHeadersNot keys p.top.headers } }

/-! ### Concrete scenario inputs and their expected outputs -/

/-- Top-level entity of a multipart message (never itself processed as a
part, since its subparts are). -/
def mtopMixed : Part :=
  ⟨[], "multipart/mixed", ⟨DispositionType.inlined, []⟩, some "", some ""⟩

/-- An inline image part with no Content-Disposition: mailparse reports
disposition inline and MIME type image/png. -/
def pngPart : Part :=
  ⟨[], "image/png", ⟨DispositionType.inlined, []⟩, some "PNGDATA", some "PNGDATA"⟩

def c2parsed : ParsedMail := ⟨mtopMixed, [pngPart]⟩

def plainPartA : Part :=
  ⟨[], "text/plain", ⟨DispositionType.inlined, []⟩, some "A", some "A"⟩

def plainPartB : Part :=
  ⟨[], "text/plain", ⟨DispositionType.inlined, []⟩, some "B", some "B"⟩

/-- A multipart message with two inline text/plain parts. -/
def c3parsed : ParsedMail := ⟨mtopMixed, [plainPartA, plainPartB]⟩

def c3msg : Message :=
  ⟨none, "", [], "", some "t", [], "", ["source", "plain", "plain"], none, some "B"⟩

/-- An attachment-disposed part with a Content-ID but no `filename`
disposition parameter. -/
def attNoFilename : Part :=
  ⟨[⟨"Content-ID", "cid1"⟩], "application/pdf", ⟨DispositionType.attachment, []⟩,
    some "X", some "X"⟩

/-- An attachment-disposed part with a `filename` parameter but no
Content-ID header. -/
def attNoCid : Part :=
  ⟨[], "application/pdf", ⟨DispositionType.attachment, [("filename", "a.pdf")]⟩,
    some "X", some "X"⟩

def c5parsedNoFilename : ParsedMail := ⟨mtopMixed, [attNoFilename]⟩

def c5parsedNoCid : ParsedMail := ⟨mtopMixed, [attNoCid]⟩

/-- An inline text/html part whose `get_body()` fails (`bodyRaw` decodes,
the text decoding does not). -/
def htmlFailPart : Part :=
  ⟨[], "text/html", ⟨DispositionType.inlined, []⟩, some "RAW", none⟩

def htmlOkPart : Part :=
  ⟨[], "text/html", ⟨DispositionType.inlined, []⟩, some "B", some "B"⟩

/-- A failing text/html part followed by a succeeding one. -/
def c10parsed : ParsedMail := ⟨mtopMixed, [htmlFailPart, htmlOkPart]⟩

def c10msg : Message :=
  ⟨none, "", [], "", some "t", [], "", ["source", "html", "html"], some "B", none⟩

/-- A message whose only text/html part fails to decode. -/
def w10parsed : ParsedMail := ⟨mtopMixed, [htmlFailPart]⟩

def w10msg : Message :=
  ⟨none, "", [], "", some "t", [], "", ["source", "html"], none, none⟩

/-- A single-part text/plain message with no headers at all. -/
def w6parsed : ParsedMail :=
  ⟨⟨[], "text/plain", ⟨DispositionType.inlined, []⟩, some "b", some "b"⟩, []⟩

def w6msg : Message :=
  ⟨none, "", [], "", some "t", [], "d", ["source", "plain"], none, some "b"⟩

/-- A single-part message with one To, one Cc and one Bcc header. -/
def w9parsed : ParsedMail :=
  ⟨⟨[⟨"To", "a@x.com"⟩, ⟨"Cc", "c@x.com"⟩, ⟨"Bcc", "d@x.com"⟩],
    "text/plain", ⟨DispositionType.inlined, []⟩, some "b", some "b"⟩, []⟩

def w9msg : Message :=
  ⟨none, "", ["a@x.com"], "", some "t", [], "d", ["source", "plain"], none, some "b"⟩

/-- The spec's concrete scenario input (§8). -/
def c7input : String := "From: a@x.com\nTo: b@y.com\nSubject: hi\n\nbody\n"

/-- What the code actually produces on `c7input`. -/
def c7msg : Message :=
  ⟨none, "a@x.com", ["b@y.com"], "hi", some "t", [], c7input,
    ["source", "plain"], none, some "body\n"⟩

/-- A byte stream mailparse rejects: the first header line has no colon
("Unexpected newline in header key"). -/
def c1badInput : String := "Nocolon\nbody"

/-- The message built from `c7input` when the clock reads "t1". -/
def c8msg1 : Message :=
  ⟨none, "a@x.com", ["b@y.com"], "hi", some "t1", [], c7input,
    ["source", "plain"], none, some "body\n"⟩

/-- The message built from `c7input` when the clock reads "t2". -/
def c8msg2 : Message :=
  ⟨none, "a@x.com", ["b@y.com"], "hi", some "t2", [], c7input,
    ["source", "plain"], none, some "body\n"⟩

/-- First SMTP transaction payload. -/
def tx1 : String := "From: a@x.com\n\nhi\n"

/-- Second SMTP transaction payload on the same handler. -/
def tx2 : String := "From: c@z.com\n\nyo\n"

def c4msg1 : Message :=
  ⟨none, "a@x.com", [], "", some "t1", [], tx1, ["source", "plain"], none, some "hi\n"⟩

def c4msg2 : Message :=
  ⟨none, "a@x.com", [], "", some "t2", [], tx1 ++ tx2, ["source", "plain"], none,
    some "hi\nFrom: c@z.com\n\nyo\n"⟩

/-! ## Helper lemmas about the part loop -/

theorem processPart_fields {st st2 : LoopState} {p : Part}
    (h : processPart st p = some st2) :
    st2.formats = st.formats ++ (partFormat p).toList ∧
    st2.html = (if isInlineHtml p then p.body else st.html) ∧
    st2.plain = (if isInlinePlain p then p.body else st.plain) := by
  by_cases ha : p.disposition.disposition = DispositionType.attachment
  · cases hf : paramsGet p.disposition.params "filename" <;>
      cases hb : p.bodyRaw <;>
      cases hc : getFirstValue p.headers "Content-ID" <;>
      simp [processPart, ha, hf, hb, hc] at h <;>
      simp [partFormat, isInlineHtml, isInlinePlain, ha, ← h]
  · by_cases hh : p.mimetype = "text/html"
    · simp [processPart, ha, hh] at h
      simp [partFormat, isInlineHtml, isInlinePlain, ha, hh, ← h]
    · by_cases hp : p.mimetype = "text/plain"
      · simp [processPart, ha, hh, hp] at h
        simp [partFormat, isInlineHtml, isInlinePlain, ha, hh, hp, ← h]
      · simp [processPart, ha, hh, hp] at h

theorem processParts_fields {ps : List Part} {st st2 : LoopState}
    (h : processParts st ps = some st2) :
    st2.formats = st.formats ++ ps.filterMap partFormat ∧
    st2.html = ps.foldl (fun a p => if isInlineHtml p then p.body else a) st.html ∧
    st2.plain = ps.foldl (fun a p => if isInlinePlain p then p.body else a) st.plain := by
  induction ps generalizing st with
  | nil =>
    simp only [processParts, Option.some.injEq] at h
    subst h
    simp
  | cons p ps ih =>
    unfold processParts at h
    cases hp : processPart st p with
    | none => rw [hp] at h; exact absurd h (by simp)
    | some stm =>
      rw [hp] at h
      obtain ⟨f1, h1, p1⟩ := processPart_fields hp
      obtain ⟨f2, h2, p2⟩ := ih h
      refine ⟨?_, ?_, ?_⟩
      · rw [f2, f1, List.append_assoc]
        congr 1
        cases hc : partFormat p <;> simp [List.filterMap_cons, hc]
      · rw [h2, h1, List.foldl_cons]
      · rw [p2, p1, List.foldl_cons]

theorem processParts_singleton (st : LoopState) (p : Part) :
    processParts st [p] = processPart st p := by
  cases hp : processPart st p <;> simp [processParts, hp]

/-- `processPart` reads a part's headers only through the `Content-ID`
lookup. -/
theorem processPart_headers_irrel {st : LoopState} {p : Part} {hs2 : List Header}
    (h : getFirstValue hs2 "Content-ID" = getFirstValue p.headers "Content-ID") :
    processPart st { p with headers := hs2 } = processPart st p := by
  simp [processPart, h]

/-- Every field of a successfully constructed `Message`, in terms of the
parsed input. -/
theorem messageFromParsed_fields {data now : String} {parsed : ParsedMail}
    {m : Message} (h : messageFromParsed data now parsed = some m) :
    m.id = none ∧
    m.sender = (getFirstValue parsed.top.headers "From").getD "" ∧
    m.recipients = getAllValues parsed.top.headers "To" ∧
    m.subject = (getFirstValue parsed.top.headers "Subject").getD "" ∧
    m.created_at = some now ∧
    m.source = data ∧
    m.formats = "source" :: (partsOf parsed).filterMap partFormat ∧
    m.html = (partsOf parsed).foldl (fun a p => if isInlineHtml p then p.body else a) none ∧
    m.plain = (partsOf parsed).foldl (fun a p => if isInlinePlain p then p.body else a) none := by
  unfold messageFromParsed at h
  cases hps : processParts ⟨["source"], none, none, []⟩ (partsOf parsed) with
  | none => rw [hps] at h; exact absurd h (by simp)
  | some st =>
    rw [hps] at h
    obtain ⟨f1, h1, p1⟩ := processParts_fields hps
    simp only [Option.some.injEq] at h
    subst h
    refine ⟨rfl, rfl, rfl, rfl, rfl, rfl, ?_, ?_, ?_⟩
    · simpa using f1
    · simpa using h1
    · simpa using p1

/-! ## Helper lemmas about header lookups -/

/-- Filtering the header list with a predicate that keeps every header
matching `key` does not change `getFirstValue key`. -/
theorem getFirstValue_filter {key : String} {p : Header → Bool} {hs : List Header}
    (hp : ∀ hd, headerNameMatches hd.name key = true → p hd = true) :
    getFirstValue (hs.filter p) key = getFirstValue hs key := by
  induction hs with
  | nil => rfl
  | cons hd t ih =>
    by_cases hm : headerNameMatches hd.name key = true
    · simp [getFirstValue, List.filter_cons, hp hd hm, List.find?_cons, hm]
    · rw [Bool.not_eq_true] at hm
      by_cases hph : p hd = true
      · simpa [getFirstValue, List.filter_cons, hph, List.find?_cons, hm] using ih
      · rw [Bool.not_eq_true] at hph
        simpa [getFirstValue, List.filter_cons, hph, List.find?_cons, hm] using ih

/-- Filtering the header list with a predicate that keeps every header
matching `key` does not change `getAllValues key`. -/
theorem getAllValues_filter {key : String} {p : Header → Bool} {hs : List Header}
    (hp : ∀ hd, headerNameMatches hd.name key = true → p hd = true) :
    getAllValues (hs.filter p) key = getAllValues hs key := by
  induction hs with
  | nil => rfl
  | cons hd t ih =>
    by_cases hm : headerNameMatches hd.name key = true
    · simp [getAllValues, List.filter_cons, hp hd hm, hm] at ih ⊢
      exact ih
    · rw [Bool.not_eq_true] at hm
      by_cases hph : p hd = true
      · simpa [getAllValues, List.filter_cons, hph, hm] using ih
      · rw [Bool.not_eq_true] at hph
        simpa [getAllValues, List.filter_cons, hph, hm] using ih

/-- Matching is determined by the lowercased name: a name matching `k1`
matches `k2` exactly when `k1` does. -/
theorem headerNameMatches_congr {n k1 k2 : String}
    (h : headerNameMatches n k1 = true) :
    headerNameMatches n k2 = headerNameMatches k1 k2 := by
  simp only [headerNameMatches, beq_iff_eq] at h ⊢
  rw [h]

/-- An absent header name makes `getFirstValue` return `none`. -/
theorem getFirstValue_eq_none {hs : List Header} {key : String}
    (h : hasHeaderNamed hs key = false) :
    getFirstValue hs key = none := by
  unfold hasHeaderNamed at h
  unfold getFirstValue
  rw [List.find?_eq_none.mpr ?_]
  · rfl
  · intro x hx hmx
    have hany : hs.any (fun hd => headerNameMatches hd.name key) = true :=
      List.any_eq_true.mpr ⟨x, hx, by simpa using hmx⟩
    rw [hany] at h
    exact absurd h (by simp)

/-- An absent header name makes `getAllValues` return `[]`. -/
theorem getAllValues_eq_nil {hs : List Header} {key : String}
    (h : hasHeaderNamed hs key = false) :
    getAllValues hs key = [] := by
  unfold hasHeaderNamed at h
  unfold getAllValues
  rw [List.filter_eq_nil_iff.mpr ?_]
  · rfl
  · intro x hx hmx
    have hany : hs.any (fun hd => headerNameMatches hd.name key) = true :=
      List.any_eq_true.mpr ⟨x, hx, by simpa using hmx⟩
    rw [hany] at h
    exact absurd h (by simp)

/-- The `filterHeadersNot keys` predicate keeps every header matching a
name that matches none of `keys`. -/
theorem filterHeadersNot_keeps {keys : List String} {key : String}
    (hk : ∀ k ∈ keys, headerNameMatches key k = false) :
    ∀ hd : Header, headerNameMatches hd.name key = true →
      (keys.all (fun k => ! headerNameMatches hd.name k)) = true := by
  intro hd hm
  refine List.all_eq_true.mpr ?_
  intro k hkk
  simp [headerNameMatches_congr hm, hk k hkk]

/-- Erasing top-level headers whose names do not match `Content-ID`
leaves the part loop's outcome unchanged. -/
theorem processParts_eraseTop {st : LoopState} {keys : List String}
    {parsed : ParsedMail}
    (hcid : ∀ k ∈ keys, headerNameMatches "Content-ID" k = false) :
    processParts st (partsOf (eraseTopHeaders keys parsed)) =
      processParts st (partsOf parsed) := by
  cases hsub : parsed.subparts with
  | cons a l => simp [partsOf, eraseTopHeaders, hsub]
  | nil =>
    simp only [partsOf, eraseTopHeaders, hsub, List.length_nil, gt_iff_lt,
      lt_self_iff_false, if_false]
    rw [processParts_singleton, processParts_singleton]
    exact processPart_headers_irrel
      (getFirstValue_filter (filterHeadersNot_keeps hcid))

/-- An inline text/html part contributes the `"html"` format tag. -/
theorem partFormat_of_isInlineHtml {q : Part} (h : isInlineHtml q = true) :
    partFormat q = some "html" := by
  by_cases ha : q.disposition.disposition = DispositionType.attachment
  · simp [isInlineHtml, ha] at h
  · by_cases hm : q.mimetype = "text/html"
    · simp [partFormat, ha, hm]
    · simp [isInlineHtml, ha, hm] at h

/-- An inline text/plain part contributes the `"plain"` format tag. -/
theorem partFormat_of_isInlinePlain {q : Part} (h : isInlinePlain q = true) :
    partFormat q = some "plain" := by
  by_cases ha : q.disposition.disposition = DispositionType.attachment
  · simp [isInlinePlain, ha] at h
  · by_cases hm : q.mimetype = "text/plain"
    · have hne : q.mimetype = "text/html" → False := by
        rw [hm]; intro hcontra; exact absurd hcontra (by decide)
      simp [partFormat, ha, hm, hne]
    · simp [isInlinePlain, ha, hm] at h

/-! ## The claims -/

/-- C1: the spec requires a byte stream that cannot be parsed as a mail
document to produce a per-transaction rejection, never terminating the
session or process.  The code instead unwraps the parse error:
on `c1badInput` (first header line has no colon, so `parse_mail` fails)
`data_end` panics and produces no SMTP response at all (modelled by
`none`), instead of returning a rejection response. -/
theorem data_end_panics_on_unparseable_input :
    dataEnd parseMailSimple "t" ⟨c1badInput, []⟩ = none := rfl

/-- C2: the spec requires an inline part whose MIME type is neither
text/html nor text/plain to be silently skipped.  The code instead hits
`todo!()`: on a multipart message whose single subpart is an inline
image/png part, `Message::from` panics (modelled `none`) rather than
returning a Message without that part. -/
theorem transducer_panics_on_unrecognized_inline_part :
    messageFromParsed "src" "t" c2parsed = none := rfl

/-- C3 counterexample: a multipart message with two inline text/plain
parts yields `formats = ["source", "plain", "plain"]`, a duplicated
entry — refuting "contains no duplicate entries even when the input
holds several text/plain parts". -/
theorem formats_duplicate_counterexample :
    messageFromParsed "" "t" c3parsed = some c3msg ∧
    ¬ c3msg.formats.Nodup := ⟨rfl, by decide⟩

/-- C3 (amended): `formats` always begins with the literal `"source"`,
followed by one tag per inline text/html or text/plain part in encounter
order ("html" and "plain" respectively); the tag is appended once per
part, so several parts of the same type do produce duplicate entries. -/
theorem formats_source_then_tag_per_part (data now : String)
    (parsed : ParsedMail) (m : Message)
    (h : messageFromParsed data now parsed = some m) :
    m.formats = "source" :: (partsOf parsed).filterMap partFormat :=
  (messageFromParsed_fields h).2.2.2.2.2.2.1

/-- Witness for the amended C3 theorem at the two-text/plain-part
input. -/
theorem formats_source_then_tag_per_part_witness :
    c3msg.formats = "source" :: (partsOf c3parsed).filterMap partFormat :=
  formats_source_then_tag_per_part "" "t" c3parsed c3msg rfl

/-- C4: the spec requires the accumulation buffer to be reset to empty
after every `data_end`.  The code never clears `self.data`: after a
first completed transaction `tx1` the buffer still holds `tx1`, and a
second transaction `tx2` on the same handler builds a Message whose
`source` is `tx1 ++ tx2` — the first transaction's bytes reappear in the
later Message. -/
theorem buffer_not_reset_across_transactions :
    dataEnd parseMailSimple "t1" (handlerData ⟨"", []⟩ tx1) =
      some (⟨tx1, [c4msg1]⟩, Response.ok) ∧
    tx1 ≠ "" ∧
    dataEnd parseMailSimple "t2" (handlerData ⟨tx1, [c4msg1]⟩ tx2) =
      some (⟨tx1 ++ tx2, [c4msg1, c4msg2]⟩, Response.ok) ∧
    c4msg2.source = tx1 ++ tx2 := ⟨rfl, by decide, rfl, rfl⟩

/-- C5: the spec requires a missing `filename` disposition parameter or
missing `Content-ID` header on an attachment part to be replaced by a
default.  The code instead unwraps: on an attachment-disposed part
without `filename`, and on one without `Content-ID`, `Message::from`
panics (modelled `none`) rather than returning a complete Message. -/
theorem transducer_panics_on_attachment_missing_filename_or_cid :
    messageFromParsed "src" "t" c5parsedNoFilename = none ∧
    messageFromParsed "src" "t" c5parsedNoCid = none := ⟨rfl, rfl⟩

/-- C6: a missing From header yields `sender = ""`, a missing Subject
header yields `subject = ""`, missing To headers yield
`recipients = []`; each To occurrence contributes its whole value as
exactly one entry, in header-appearance order (no comma splitting); and
erasing the From/To/Subject headers never turns a succeeding run into a
failure. -/
theorem missing_headers_default_and_to_occurrences (data now : String)
    (parsed : ParsedMail) (m : Message)
    (h : messageFromParsed data now parsed = some m) :
    (hasHeaderNamed parsed.top.headers "From" = false → m.sender = "") ∧
    (hasHeaderNamed parsed.top.headers "Subject" = false → m.subject = "") ∧
    (hasHeaderNamed parsed.top.headers "To" = false → m.recipients = []) ∧
    m.recipients = getAllValues parsed.top.headers "To" ∧
    (messageFromParsed data now
      (eraseTopHeaders ["From", "To", "Subject"] parsed)).isSome = true := by
  obtain ⟨_, hs, hr, hsub, _, _, _, _, _⟩ := messageFromParsed_fields h
  refine ⟨?_, ?_, ?_, hr, ?_⟩
  · intro hmiss; rw [hs, getFirstValue_eq_none hmiss]; rfl
  · intro hmiss; rw [hsub, getFirstValue_eq_none hmiss]; rfl
  · intro hmiss; rw [hr, getAllValues_eq_nil hmiss]
  · unfold messageFromParsed at h ⊢
    rw [processParts_eraseTop (by decide)]
    cases hps : processParts ⟨["source"], none, none, []⟩ (partsOf parsed) with
    | none => rw [hps] at h; exact absurd h (by simp)
    | some st => rfl

/-- Witness for C6 at a single-part text/plain message carrying no
headers at all. -/
theorem missing_headers_default_witness :
    (hasHeaderNamed w6parsed.top.headers "From" = false → w6msg.sender = "") ∧
    (hasHeaderNamed w6parsed.top.headers "Subject" = false → w6msg.subject = "") ∧
    (hasHeaderNamed w6parsed.top.headers "To" = false → w6msg.recipients = []) ∧
    w6msg.recipients = getAllValues w6parsed.top.headers "To" ∧
    (messageFromParsed "d" "t"
      (eraseTopHeaders ["From", "To", "Subject"] w6parsed)).isSome = true :=
  missing_headers_default_and_to_occurrences "d" "t" w6parsed w6msg rfl

/-- C7 counterexample: on the spec's concrete input the code returns a
Message whose `formats` is `["source", "plain"]`, not `["source"]` as
claimed — mailparse defaults a missing Content-Type to text/plain, and
the single-part loop then appends "plain". -/
theorem concrete_scenario_formats_counterexample :
    messageFrom parseMailSimple "t" c7input = some c7msg ∧
    c7msg.formats ≠ ["source"] := ⟨rfl, by decide⟩

/-- C7 (amended): on input
"From: a@x.com\nTo: b@y.com\nSubject: hi\n\nbody\n" the transducer
returns sender "a@x.com", recipients ["b@y.com"], subject "hi" and no
attachments — but `formats = ["source", "plain"]` (with the decoded
plain body), since the non-multipart input itself is the single
text/plain part. -/
theorem concrete_scenario_message :
    messageFrom parseMailSimple "t" c7input = some c7msg ∧
    c7msg.sender = "a@x.com" ∧ c7msg.recipients = ["b@y.com"] ∧
    c7msg.subject = "hi" ∧ c7msg.formats = ["source", "plain"] ∧
    c7msg.attachments = [] := ⟨rfl, rfl, rfl, rfl, rfl, rfl⟩

/-- C8: the transducer is deterministic up to `created_at`: two runs on
the same byte stream agree on every field except `created_at`, and `id`
is absent in both. -/
theorem transducer_deterministic_up_to_created_at
    (parseMail : String → Option ParsedMail) (data now1 now2 : String)
    (m1 m2 : Message)
    (h1 : messageFrom parseMail now1 data = some m1)
    (h2 : messageFrom parseMail now2 data = some m2) :
    m1.id = none ∧ m2.id = none ∧
    m1.sender = m2.sender ∧ m1.recipients = m2.recipients ∧
    m1.subject = m2.subject ∧ m1.attachments = m2.attachments ∧
    m1.source = m2.source ∧ m1.formats = m2.formats ∧
    m1.html = m2.html ∧ m1.plain = m2.plain := by
  unfold messageFrom at h1 h2
  cases hp : parseMail data with
  | none => rw [hp] at h1; exact absurd h1 (by simp)
  | some parsed =>
    rw [hp] at h1 h2
    have h1m : messageFromParsed data now1 parsed = some m1 := h1
    have h2m : messageFromParsed data now2 parsed = some m2 := h2
    unfold messageFromParsed at h1m h2m
    cases hps : processParts ⟨["source"], none, none, []⟩ (partsOf parsed) with
    | none => rw [hps] at h1m; exact absurd h1m (by simp)
    | some st =>
      rw [hps] at h1m h2m
      simp only [Option.some.injEq] at h1m h2m
      subst h1m; subst h2m
      exact ⟨rfl, rfl, rfl, rfl, rfl, rfl, rfl, rfl, rfl, rfl⟩

/-- Witness for C8: the spec's concrete input fed twice, with clock
readings "t1" and "t2". -/
theorem transducer_deterministic_witness :
    c8msg1.id = none ∧ c8msg2.id = none ∧
    c8msg1.sender = c8msg2.sender ∧ c8msg1.recipients = c8msg2.recipients ∧
    c8msg1.subject = c8msg2.subject ∧ c8msg1.attachments = c8msg2.attachments ∧
    c8msg1.source = c8msg2.source ∧ c8msg1.formats = c8msg2.formats ∧
    c8msg1.html = c8msg2.html ∧ c8msg1.plain = c8msg2.plain :=
  transducer_deterministic_up_to_created_at parseMailSimple c7input "t1" "t2"
    c8msg1 c8msg2 rfl rfl

/-- C9: the transducer builds `recipients` exclusively from To headers:
erasing every Cc and Bcc header changes nothing in the result, and
`recipients` is exactly the list of To header values. -/
theorem recipients_only_from_to_headers (data now : String)
    (parsed : ParsedMail) :
    messageFromParsed data now (eraseTopHeaders ["Cc", "Bcc"] parsed) =
      messageFromParsed data now parsed ∧
    (∀ m : Message, messageFromParsed data now parsed = some m →
      m.recipients = getAllValues parsed.top.headers "To") := by
  constructor
  · have h1 : getFirstValue (filterHeadersNot ["Cc", "Bcc"] parsed.top.headers) "From" =
        getFirstValue parsed.top.headers "From" :=
      getFirstValue_filter (filterHeadersNot_keeps (by decide))
    have h2 : getAllValues (filterHeadersNot ["Cc", "Bcc"] parsed.top.headers) "To" =
        getAllValues parsed.top.headers "To" :=
      getAllValues_filter (filterHeadersNot_keeps (by decide))
    have h3 : getFirstValue (filterHeadersNot ["Cc", "Bcc"] parsed.top.headers) "Subject" =
        getFirstValue parsed.top.headers "Subject" :=
      getFirstValue_filter (filterHeadersNot_keeps (by decide))
    unfold messageFromParsed
    rw [processParts_eraseTop (by decide)]
    cases hps : processParts ⟨["source"], none, none, []⟩ (partsOf parsed) with
    | none => rfl
    | some st =>
      simp only [eraseTopHeaders]
      rw [h1, h2, h3]
  · intro m h
    exact (messageFromParsed_fields h).2.2.1

/-- Witness for C9 at a message with one To, one Cc and one Bcc
header. -/
theorem recipients_only_from_to_witness :
    messageFromParsed "d" "t" (eraseTopHeaders ["Cc", "Bcc"] w9parsed) =
      messageFromParsed "d" "t" w9parsed ∧
    w9msg.recipients = getAllValues w9parsed.top.headers "To" :=
  ⟨(recipients_only_from_to_headers "d" "t" w9parsed).1,
    (recipients_only_from_to_headers "d" "t" w9parsed).2 w9msg rfl⟩

/-- C10 counterexample: the input `c10parsed` contains an inline
text/html part whose body fails to decode, yet the resulting Message's
`html` field is not absent — a later text/html part decoded and
overwrote it.  This refutes the unconditional "leaving the html field
absent". -/
theorem failed_decode_html_not_absent_counterexample :
    htmlFailPart.body = none ∧ isInlineHtml htmlFailPart = true ∧
    htmlFailPart ∈ partsOf c10parsed ∧
    messageFromParsed "" "t" c10parsed = some c10msg ∧
    c10msg.html = some "B" := by
  refine ⟨rfl, rfl, ?_, rfl, rfl⟩
  simp [partsOf, c10parsed]

/-- C10 (amended): every inline text/html (resp. text/plain) part — a
failing one included — appends "html" (resp. "plain") to `formats`,
while the `html` (resp. `plain`) field ends up holding the decoded body
of the last such part (absent when that part's body failed to decode).
So when the failing part is the last one of its type, `formats`
advertises a representation whose decoded body is not present. -/
theorem failed_decode_still_advertises_format (data now : String)
    (parsed : ParsedMail) (m : Message)
    (h : messageFromParsed data now parsed = some m) :
    m.html = (partsOf parsed).foldl
      (fun a p => if isInlineHtml p then p.body else a) none ∧
    m.plain = (partsOf parsed).foldl
      (fun a p => if isInlinePlain p then p.body else a) none ∧
    ((partsOf parsed).any isInlineHtml = true → "html" ∈ m.formats) ∧
    ((partsOf parsed).any isInlinePlain = true → "plain" ∈ m.formats) := by
  obtain ⟨_, _, _, _, _, _, hf, hh, hp⟩ := messageFromParsed_fields h
  refine ⟨hh, hp, ?_, ?_⟩
  · intro hx
    obtain ⟨q, hq, hqh⟩ := List.any_eq_true.mp hx
    rw [hf]
    exact List.mem_cons_of_mem _
      (List.mem_filterMap.mpr ⟨q, hq, partFormat_of_isInlineHtml (by simpa using hqh)⟩)
  · intro hx
    obtain ⟨q, hq, hqh⟩ := List.any_eq_true.mp hx
    rw [hf]
    exact List.mem_cons_of_mem _
      (List.mem_filterMap.mpr ⟨q, hq, partFormat_of_isInlinePlain (by simpa using hqh)⟩)

/-- Witness for the amended C10 theorem at a message whose only
text/html part fails to decode: "html" is advertised while the field is
absent. -/
theorem failed_decode_still_advertises_format_witness :
    w10msg.html = (partsOf w10parsed).foldl
      (fun a p => if isInlineHtml p then p.body else a) none ∧
    w10msg.plain = (partsOf w10parsed).foldl
      (fun a p => if isInlinePlain p then p.body else a) none ∧
    ((partsOf w10parsed).any isInlineHtml = true → "html" ∈ w10msg.formats) ∧
    ((partsOf w10parsed).any isInlinePlain = true → "plain" ∈ w10msg.formats) :=
  failed_decode_still_advertises_format "" "t" w10parsed w10msg rfl

end Mailtutan
